import Mathlib

/-!
# The porkbun DNS-01 solver

A shallow embedding of `main.go`: the credential resolver (`validate`,
`loadApiKeys`), the provider client (`searchRecords`, `addTxtRecord`,
`updateTxtRecord`, `deleteTXTRecord`) and the two reconciler entry points
(`Present`, `CleanUp`).

The collaborators that live outside the repository are the environment:
the Kubernetes secret store and the HTTP transport are the two fields of
`Env`, and the JSON decoder shows up as the decoded document a response or a
configuration payload carries.  Every POST a function issues is recorded, in
order, in the `calls` of its `Run`; a Go `error` is its message; a run-time
fault of a failed type assertion is the outcome `panic`.
-/

namespace Porkbun

/-! ## Strings -/

/-- Go `strings.TrimRight(s, cutset)`: `s` without its trailing characters that occur in `cutset`. -/
def TrimRight (s cutset : String) : String :=
  ⟨(s.data.reverse.dropWhile (fun c => decide (c ∈ cutset.data))).reverse⟩

/-- Go `strings.HasSuffix(s, suffix)`. -/
def HasSuffix (s suffix : String) : Bool :=
  suffix.data.isSuffixOf s.data

/-- Go `strings.TrimSuffix(s, suffix)`: `s[:len(s)-len(suffix)]` when `s` ends in `suffix`, else `s`. -/
def TrimSuffix (s suffix : String) : String :=
  if HasSuffix s suffix then ⟨s.data.take (s.data.length - suffix.data.length)⟩ else s

/-! ## Loosely typed JSON documents -/

/-- What `json.Unmarshal` stores in an `any`: `nil`, `bool`, `float64` (kept as its
literal, only its dynamic type matters here), `string`, `[]interface{}` and
`map[string]any` (its entries, looked up by key). -/
inductive JVal where
  | null
  | bool (b : Bool)
  | num (lit : String)
  | str (s : String)
  | arr (items : List JVal)
  | obj (fields : List (String × JVal))

/-- Go `m[k]` on a `map[string]any`: `none` is the nil interface of an absent key. -/
def index (m : List (String × JVal)) (k : String) : Option JVal :=
  List.lookup k m

/-- Go `v == s` between an `any` and a string: true only for a string of equal value. -/
def ifaceEq (v : Option JVal) (s : String) : Bool :=
  match v with
  | some (JVal.str t) => t == s
  | _ => false

/-- Go `v.(string)`: `none` stands for the run-time fault of the failed assertion. -/
def assertString (v : Option JVal) : Option String :=
  match v with
  | some (JVal.str t) => some t
  | _ => none

/-! ## Data model -/

/-- The struct `porkbunRecord`. -/
structure porkbunRecord where
  ID : String
  Name : String
  Type_ : String
  Content : String
  TTL : String
  Prio : String
  Notes : String
  deriving DecidableEq, Repr

/-- The struct `porkbunCreateUpdateRecord`, the body of a create or an edit. -/
structure porkbunCreateUpdateRecord where
  SecretAPIKey : String
  APIKey : String
  Name : String
  TTL : String
  Type_ : String
  Content : String
  deriving DecidableEq, Repr

/-- The struct `k8sv1.SecretReference`. -/
structure SecretReference where
  Name : String
  Namespace : String
  deriving DecidableEq, Repr

/-- The struct `porkbunDNSProviderConfig`. -/
structure porkbunDNSProviderConfig where
  APIKeysSecretRef : SecretReference
  APIkey : String
  APISecretKey : String
  deriving DecidableEq, Repr

/-- The raw configuration payload `extapi.JSON`, carried as what `json.Unmarshal`
makes of its bytes for a `porkbunDNSProviderConfig`: the decoded struct, or the
decoder's error. -/
structure JSON where
  Raw : Except String porkbunDNSProviderConfig

/-- The fields of `v1alpha1.ChallengeRequest` the solver reads; `Config` is a pointer and may be nil. -/
structure ChallengeRequest where
  ResolvedFQDN : String
  ResolvedZone : String
  Key : String
  ResourceNamespace : String
  Config : Option JSON

/-! ## The provider wire protocol -/

/-- The base URL of the provider. -/
def porkbunURIEndpoint : String := "https://api.porkbun.com/api/json/v3"

/-- The four endpoints a call is posted to, by operation, zone and record id. -/
inductive Endpoint where
  | retrieve (zone : String)
  | create (zone : String)
  | edit (zone : String) (id : String)
  | delete (zone : String) (id : String)
  deriving DecidableEq, Repr

/-- The URL of an endpoint, as the `fmt.Sprintf` calls of the client build it. -/
def Endpoint.url : Endpoint → String
  | Endpoint.retrieve zone => porkbunURIEndpoint ++ "/dns/retrieve/" ++ zone
  | Endpoint.create zone => porkbunURIEndpoint ++ "/dns/create/" ++ zone
  | Endpoint.edit zone id => porkbunURIEndpoint ++ "/dns/edit/" ++ zone ++ "/" ++ id
  | Endpoint.delete zone id => porkbunURIEndpoint ++ "/dns/delete/" ++ zone ++ "/" ++ id

/-- A create, an edit or a delete: the calls that change the provider. -/
def Endpoint.mutating : Endpoint → Bool
  | Endpoint.retrieve _ => false
  | _ => true

/-- A request body: the credential map of search and delete, or the record of create and edit. -/
inductive Body where
  | keys (secretapikey : String) (apikey : String)
  | record (r : porkbunCreateUpdateRecord)
  deriving DecidableEq, Repr

/-- One POST issued to the provider. -/
structure HttpCall where
  endpoint : Endpoint
  body : Body
  deriving DecidableEq, Repr

/-- A `resty.Response`, by the accessors the client reads: `StatusCode()`, `Status()`,
`String()` (the body as text, which `%v` prints), and `Body()` carried as the document
`json.Unmarshal` decodes it to, `none` when the decoder reports an error. -/
structure Response where
  statusCode : Nat
  status : String
  string : String
  body : Option JVal

/-- The collaborators: `Secrets ns name` is `Secrets(ns).Get(name)` of the Kubernetes
client (the secret's `Data`, or the lookup error); `post` is one POST against the
provider in state `w`, answering with a response or a transport error and the
provider's next state. -/
structure Env (σ : Type) where
  Secrets : String → String → Except String (List (String × String))
  post : σ → Endpoint → Body → Except String Response × σ

/-- How a Go call ends: a value with a nil error, an error, or a run-time fault. -/
inductive Outcome (α : Type) where
  | ok (a : α)
  | error (msg : String)
  | panic
  deriving DecidableEq, Repr

/-- A finished call: its outcome, the provider state it leaves, and the POSTs it issued, in order. -/
structure Run (σ : Type) (α : Type) where
  out : Outcome α
  world : σ
  calls : List HttpCall

/-! ## Credential resolver -/

deriving instance DecidableEq for Except

/-- The method `validate`: `Except.ok ()` is the nil error. -/
def validate (cfg : porkbunDNSProviderConfig) : Except String Unit :=
  if cfg.APIKeysSecretRef.Name ≠ "" ∨ (cfg.APIkey ≠ "" ∧ cfg.APISecretKey ≠ "") then
    Except.ok ()
  else
    Except.error "API keys or secret not provided"

/-- The method `loadApiKeys`; it writes through `cfg`, so it returns the configuration it leaves. -/
def loadApiKeys {σ : Type} (env : Env σ) (cfg : porkbunDNSProviderConfig)
    (ch : ChallengeRequest) : Except String porkbunDNSProviderConfig :=
  if cfg.APIkey ≠ "" ∧ cfg.APISecretKey ≠ "" then
    Except.ok cfg
  else
    let ns := if cfg.APIKeysSecretRef.Namespace ≠ "" then cfg.APIKeysSecretRef.Namespace
              else ch.ResourceNamespace
    match env.Secrets ns cfg.APIKeysSecretRef.Name with
    | Except.error err => Except.error err
    | Except.ok sec =>
      let apiKeyBytes := List.lookup "apiKey" sec
      if cfg.APIkey = "" ∧ apiKeyBytes.isNone then
        Except.error ("key apiKey not found in secret \"" ++ cfg.APIKeysSecretRef.Name
          ++ "/" ++ ns ++ "\"")
      else
        let apiSecretKeyBytes := List.lookup "apiSecretKey" sec
        if cfg.APISecretKey = "" ∧ apiSecretKeyBytes.isNone then
          Except.error ("key apiSecretKey not found in secret \"" ++ cfg.APIKeysSecretRef.Name
            ++ "/" ++ ns ++ "\"")
        else
          Except.ok { cfg with APIkey := apiKeyBytes.getD "",
                               APISecretKey := apiSecretKeyBytes.getD "" }

/-- The function `loadConfig`. -/
def loadConfig (cfgJSON : Option JSON) : Except String porkbunDNSProviderConfig :=
  match cfgJSON with
  | none => Except.ok ⟨⟨"", ""⟩, "", ""⟩
  | some j =>
    match j.Raw with
    | Except.error err => Except.error ("error decoding solver config: " ++ err)
    | Except.ok cfg => Except.ok cfg

/-! ## Provider client -/

/-- The loop of `searchRecords` over `result["records"]`. -/
def scanRecords (fqdn key : String) : List JVal → Outcome (Option porkbunRecord)
  | [] => Outcome.ok none
  | JVal.obj record :: rest =>
    if ifaceEq (index record "name") fqdn && ifaceEq (index record "content") key then
      match assertString (index record "id"), assertString (index record "name"),
            assertString (index record "type"), assertString (index record "content"),
            assertString (index record "ttl") with
      | some id, some name, some typ, some content, some ttl =>
        Outcome.ok (some ⟨id, name, typ, content, ttl, "", ""⟩)
      | _, _, _, _, _ => Outcome.panic
    else scanRecords fqdn key rest
  | _ :: rest => scanRecords fqdn key rest

/-- The part of `searchRecords` after a 200 answer: decode the body into
`result`, assert `result["records"]` to be a slice, scan it. -/
def searchBody (fqdn key : String) (body : Option JVal) : Outcome (Option porkbunRecord) :=
  match body with
  | some (JVal.obj result) =>
    match index result "records" with
    | some (JVal.arr items) => scanRecords fqdn key items
    | _ => Outcome.panic
  | _ => Outcome.panic

/-- The method `searchRecords`. -/
def searchRecords {σ : Type} (env : Env σ) (cfg : porkbunDNSProviderConfig)
    (ch : ChallengeRequest) (w : σ) : Run σ (Option porkbunRecord) :=
  let fqdn := TrimRight ch.ResolvedFQDN "."
  let apiEndpoint := Endpoint.retrieve (TrimRight ch.ResolvedZone ".")
  let body := Body.keys cfg.APISecretKey cfg.APIkey
  match env.post w apiEndpoint body with
  | (Except.error err, w1) => ⟨Outcome.error err, w1, [⟨apiEndpoint, body⟩]⟩
  | (Except.ok response, w1) =>
    if response.statusCode ≠ 200 then
      ⟨Outcome.error ("\x7b requested_record: '" ++ TrimRight ch.ResolvedFQDN "." ++ "', "
          ++ ("status_code: '" ++ toString response.statusCode ++ "', status: '"
              ++ response.status ++ "', ")
          ++ ("response: '" ++ response.string ++ "' \x7d")),
        w1, [⟨apiEndpoint, body⟩]⟩
    else
      ⟨searchBody fqdn ch.Key response.body, w1, [⟨apiEndpoint, body⟩]⟩

/-- The short name of `addTxtRecord` and `updateTxtRecord`:
`strings.TrimRight(strings.TrimSuffix(fqdn, zone), ".")` on the stripped FQDN and zone. -/
def shortName (ResolvedFQDN ResolvedZone : String) : String :=
  let zone := TrimRight ResolvedZone "."
  let fqdn := TrimRight ResolvedFQDN "."
  TrimRight (TrimSuffix fqdn zone) "."

/-- The body both `addTxtRecord` and `updateTxtRecord` build. -/
def createUpdateBody (cfg : porkbunDNSProviderConfig) (ch : ChallengeRequest) :
    porkbunCreateUpdateRecord :=
  { SecretAPIKey := cfg.APISecretKey, APIKey := cfg.APIkey, Name := shortName ch.ResolvedFQDN ch.ResolvedZone,
    TTL := "600", Type_ := "TXT", Content := ch.Key }

/-- The method `addTxtRecord`; the record it returns is always nil. -/
def addTxtRecord {σ : Type} (env : Env σ) (cfg : porkbunDNSProviderConfig)
    (ch : ChallengeRequest) (w : σ) : Run σ (Option porkbunRecord) :=
  let zone := TrimRight ch.ResolvedZone "."
  let apiEndpoint := Endpoint.create zone
  let body := Body.record (createUpdateBody cfg ch)
  match env.post w apiEndpoint body with
  | (Except.error err, w1) => ⟨Outcome.error err, w1, [⟨apiEndpoint, body⟩]⟩
  | (Except.ok response, w1) =>
    if response.statusCode = 400 then
      ⟨Outcome.error ("error updating TXT record: " ++ response.string), w1,
        [⟨apiEndpoint, body⟩]⟩
    else ⟨Outcome.ok none, w1, [⟨apiEndpoint, body⟩]⟩

/-- The method `updateTxtRecord`. -/
def updateTxtRecord {σ : Type} (env : Env σ) (cfg : porkbunDNSProviderConfig)
    (ch : ChallengeRequest) (r : porkbunRecord) (w : σ) : Run σ Unit :=
  let zone := TrimRight ch.ResolvedZone "."
  let apiEndpoint := Endpoint.edit zone r.ID
  let body := Body.record (createUpdateBody cfg ch)
  match env.post w apiEndpoint body with
  | (Except.error err, w1) => ⟨Outcome.error err, w1, [⟨apiEndpoint, body⟩]⟩
  | (Except.ok response, w1) =>
    if response.statusCode = 400 then
      ⟨Outcome.error ("error updating TXT record: " ++ response.string), w1,
        [⟨apiEndpoint, body⟩]⟩
    else ⟨Outcome.ok (), w1, [⟨apiEndpoint, body⟩]⟩

/-- The method `deleteTXTRecord`. -/
def deleteTXTRecord {σ : Type} (env : Env σ) (cfg : porkbunDNSProviderConfig)
    (ch : ChallengeRequest) (r : porkbunRecord) (w : σ) : Run σ Unit :=
  let zone := TrimRight ch.ResolvedZone "."
  let apiEndpoint := Endpoint.delete zone r.ID
  let body := Body.keys cfg.APISecretKey cfg.APIkey
  match env.post w apiEndpoint body with
  | (Except.error err, w1) => ⟨Outcome.error err, w1, [⟨apiEndpoint, body⟩]⟩
  | (Except.ok response, w1) =>
    if response.statusCode = 400 then
      ⟨Outcome.error ("error deleting TXT record: " ++ response.string), w1,
        [⟨apiEndpoint, body⟩]⟩
    else ⟨Outcome.ok (), w1, [⟨apiEndpoint, body⟩]⟩

/-! ## Reconciler -/

/-- The branch of `Present` after the search: nothing, an update, or a create. -/
def presentAfterSearch {σ : Type} (env : Env σ) (cfg : porkbunDNSProviderConfig)
    (ch : ChallengeRequest) (s : Run σ (Option porkbunRecord)) : Run σ Unit :=
  match s.out with
  | Outcome.error err => ⟨Outcome.error err, s.world, s.calls⟩
  | Outcome.panic => ⟨Outcome.panic, s.world, s.calls⟩
  | Outcome.ok (some result) =>
    if result.Content ≠ ch.Key then
      let u := updateTxtRecord env cfg ch result s.world
      ⟨u.out, u.world, s.calls ++ u.calls⟩
    else ⟨Outcome.ok (), s.world, s.calls⟩
  | Outcome.ok none =>
    let a := addTxtRecord env cfg ch s.world
    match a.out with
    | Outcome.error err => ⟨Outcome.error err, a.world, s.calls ++ a.calls⟩
    | Outcome.panic => ⟨Outcome.panic, a.world, s.calls ++ a.calls⟩
    | Outcome.ok _ => ⟨Outcome.ok (), a.world, s.calls ++ a.calls⟩

/-- The method `Present`. -/
def Present {σ : Type} (env : Env σ) (ch : ChallengeRequest) (w : σ) : Run σ Unit :=
  match loadConfig ch.Config with
  | Except.error err => ⟨Outcome.error err, w, []⟩
  | Except.ok cfg0 =>
    match validate cfg0 with
    | Except.error err => ⟨Outcome.error err, w, []⟩
    | Except.ok _ =>
      match loadApiKeys env cfg0 ch with
      | Except.error err => ⟨Outcome.error err, w, []⟩
      | Except.ok cfg => presentAfterSearch env cfg ch (searchRecords env cfg ch w)

/-- The branch of `CleanUp` after the search: a delete of the record found, or nothing. -/
def cleanUpAfterSearch {σ : Type} (env : Env σ) (cfg : porkbunDNSProviderConfig)
    (ch : ChallengeRequest) (s : Run σ (Option porkbunRecord)) : Run σ Unit :=
  match s.out with
  | Outcome.error err => ⟨Outcome.error err, s.world, s.calls⟩
  | Outcome.panic => ⟨Outcome.panic, s.world, s.calls⟩
  | Outcome.ok (some result) =>
    let d := deleteTXTRecord env cfg ch result s.world
    ⟨d.out, d.world, s.calls ++ d.calls⟩
  | Outcome.ok none => ⟨Outcome.ok (), s.world, s.calls⟩

/-- The method `CleanUp`. -/
def CleanUp {σ : Type} (env : Env σ) (ch : ChallengeRequest) (w : σ) : Run σ Unit :=
  match loadConfig ch.Config with
  | Except.error err => ⟨Outcome.error err, w, []⟩
  | Except.ok cfg0 =>
    match validate cfg0 with
    | Except.error err => ⟨Outcome.error err, w, []⟩
    | Except.ok _ =>
      match loadApiKeys env cfg0 ch with
      | Except.error err => ⟨Outcome.error err, w, []⟩
      | Except.ok cfg => cleanUpAfterSearch env cfg ch (searchRecords env cfg ch w)


/-! ## Specification-level notions -/

/-- The first three steps `Present` and `CleanUp` share: decode the configuration,
validate it, load the API keys.  A request has resolvable credentials when this
is `Except.ok cfg`; `cfg` then holds the resolved key pair. -/
def credentials {σ : Type} (env : Env σ) (ch : ChallengeRequest) :
    Except String porkbunDNSProviderConfig :=
  match loadConfig ch.Config with
  | Except.error err => Except.error err
  | Except.ok cfg0 =>
    match validate cfg0 with
    | Except.error err => Except.error err
    | Except.ok _ => loadApiKeys env cfg0 ch

/-- A typed reading of one element of the `records` sequence: an object whose `id`,
`name`, `type`, `content` and `ttl` are strings, as a `porkbunRecord` with these five
fields; `none` for anything else. -/
def decodeRecord : JVal → Option porkbunRecord
  | JVal.obj m =>
    match index m "id", index m "name", index m "type", index m "content", index m "ttl" with
    | some (JVal.str id), some (JVal.str name), some (JVal.str typ), some (JVal.str content),
      some (JVal.str ttl) => some ⟨id, name, typ, content, ttl, "", ""⟩
    | _, _, _, _, _ => none
  | _ => none

/-- The first record, in the order of the response, with the given name and content. -/
def firstMatch (fqdn key : String) (items : List JVal) : Option porkbunRecord :=
  (items.filterMap decodeRecord).find? (fun r => decide (r.Name = fqdn ∧ r.Content = key))

/-! ## A provider that is a list of records -/

/-- The free choices of the list-of-records provider: the secret store next to it,
the calls it answers with HTTP 400 and leaves without effect, the text of its
answers, and the id it gives a new record. -/
structure ProviderModel where
  Secrets : String → String → Except String (List (String × String))
  rejects : Endpoint → Body → Bool
  text : Endpoint → String
  newID : List porkbunRecord → String

/-- A record as an object of the search response. -/
def recordJSON (r : porkbunRecord) : JVal :=
  JVal.obj [("id", JVal.str r.ID), ("name", JVal.str r.Name), ("type", JVal.str r.Type_),
    ("content", JVal.str r.Content), ("ttl", JVal.str r.TTL), ("prio", JVal.str r.Prio),
    ("notes", JVal.str r.Notes)]

/-- One POST against the list of records: a search answers 200 with the current
list; a create for zone `z` adds one record named `n + "." + z` with the content of
the body; an edit rewrites and a delete removes the record of the given id. -/
def ProviderModel.post (m : ProviderModel) (recs : List porkbunRecord) (ep : Endpoint)
    (body : Body) : Except String Response × List porkbunRecord :=
  if m.rejects ep body then (Except.ok ⟨400, "400 Bad Request", m.text ep, none⟩, recs)
  else
    match ep, body with
    | Endpoint.retrieve _, _ =>
      (Except.ok ⟨200, "200 OK", m.text ep,
        some (JVal.obj [("status", JVal.str "SUCCESS"),
                        ("records", JVal.arr (recs.map recordJSON))])⟩, recs)
    | Endpoint.create zone, Body.record b =>
      (Except.ok ⟨200, "200 OK", m.text ep, some (JVal.obj [("status", JVal.str "SUCCESS")])⟩,
        recs ++ [⟨m.newID recs, b.Name ++ "." ++ zone, b.Type_, b.Content, b.TTL, "", ""⟩])
    | Endpoint.edit zone id, Body.record b =>
      (Except.ok ⟨200, "200 OK", m.text ep, some (JVal.obj [("status", JVal.str "SUCCESS")])⟩,
        recs.map (fun r => if r.ID = id then
          { r with Name := b.Name ++ "." ++ zone, Type_ := b.Type_, Content := b.Content,
                   TTL := b.TTL } else r))
    | Endpoint.delete _ id, _ =>
      (Except.ok ⟨200, "200 OK", m.text ep, some (JVal.obj [("status", JVal.str "SUCCESS")])⟩,
        recs.filter (fun r => decide (r.ID ≠ id)))
    | _, _ => (Except.ok ⟨400, "400 Bad Request", m.text ep, none⟩, recs)

/-- The environment the list-of-records provider makes. -/
def ProviderModel.env (m : ProviderModel) : Env (List porkbunRecord) :=
  { Secrets := m.Secrets, post := m.post }

/-! ## Concrete inputs -/

/-- A provider that rejects nothing and numbers its records. -/
def plainProvider : ProviderModel :=
  { Secrets := fun _ _ => Except.error "secret not found",
    rejects := fun _ _ => false,
    text := fun _ => "",
    newID := fun recs => toString recs.length }

/-- A configuration with both keys inline. -/
def inlineConfig : porkbunDNSProviderConfig := ⟨⟨"", ""⟩, "pk1_key", "sk1_secret"⟩

/-- The challenge of the scenarios: `_acme-challenge.example.com.` in `example.com.`, token `abc123`. -/
def exampleRequest : ChallengeRequest :=
  ⟨"_acme-challenge.example.com.", "example.com.", "abc123", "default", some ⟨Except.ok inlineConfig⟩⟩

/-- A configuration with `apiKey` inline and `apiSecretKey` left to the secret `porkbun-keys`. -/
def mixedConfig : porkbunDNSProviderConfig := ⟨⟨"porkbun-keys", ""⟩, "inline-key", ""⟩

/-- The challenge of the scenarios with `mixedConfig`, in namespace `cert-manager`. -/
def mixedRequest : ChallengeRequest :=
  ⟨"_acme-challenge.example.com.", "example.com.", "abc123", "cert-manager",
    some ⟨Except.ok mixedConfig⟩⟩

/-- An environment whose secret store holds `data` as `cert-manager/porkbun-keys` and
whose provider answers every call with status `code`, text `text` and document `body`. -/
def fixedEnv (data : List (String × String)) (code : Nat) (text : String)
    (body : Option JVal) : Env Unit :=
  { Secrets := fun ns name =>
      if ns = "cert-manager" ∧ name = "porkbun-keys" then Except.ok data
      else Except.error ("secrets \"" ++ name ++ "\" not found"),
    post := fun w _ _ => (Except.ok ⟨code, "", text, body⟩, w) }

/-- A search response whose only record has the name and token of `exampleRequest`
and a numeric `id`. -/
def numericIdBody : JVal :=
  JVal.obj [("status", JVal.str "SUCCESS"),
    ("records", JVal.arr [JVal.obj [("id", JVal.num "42"),
      ("name", JVal.str "_acme-challenge.example.com"), ("type", JVal.str "TXT"),
      ("content", JVal.str "abc123"), ("ttl", JVal.str "600")]])]

/-- A well-formed search response: record `41` has the name with another token,
record `42` has the name and token of `exampleRequest`. -/
def twoRecordsBody : JVal :=
  JVal.obj [("status", JVal.str "SUCCESS"),
    ("records", JVal.arr [
      JVal.obj [("id", JVal.str "41"), ("name", JVal.str "_acme-challenge.example.com"),
        ("type", JVal.str "TXT"), ("content", JVal.str "other-token"), ("ttl", JVal.str "600")],
      JVal.obj [("id", JVal.str "42"), ("name", JVal.str "_acme-challenge.example.com"),
        ("type", JVal.str "TXT"), ("content", JVal.str "abc123"), ("ttl", JVal.str "600")]])]

/-- The provider state behind `twoRecordsBody`: record `41` with another token, record
`42` with the token of `exampleRequest`. -/
def twoRecords : List porkbunRecord :=
  [⟨"41", "_acme-challenge.example.com", "TXT", "other-token", "600", "", ""⟩,
   ⟨"42", "_acme-challenge.example.com", "TXT", "abc123", "600", "", ""⟩]

/-! ## Strings: lemmas -/

theorem dot_data : (".": String).data = ['.'] := rfl

theorem TrimRight_data (s : String) :
    (TrimRight s ".").data = (s.data.reverse.dropWhile (fun c => decide (c = '.'))).reverse := by
  simp [TrimRight, dot_data]

theorem TrimRight_append_dot (s : String) : TrimRight (s ++ ".") "." = TrimRight s "." := by
  apply String.ext
  simp [TrimRight_data, String.data_append, dot_data, List.dropWhile]

theorem TrimRight_of_not_dot (s : String) (h : s.data.getLast? ≠ some '.') :
    TrimRight s "." = s := by
  apply String.ext
  rw [TrimRight_data]
  rw [← List.head?_reverse] at h
  cases hr : s.data.reverse with
  | nil =>
    have : s.data = [] := by simpa using hr
    simp [this]
  | cons c t =>
    rw [hr] at h
    have hc : c ≠ '.' := by simpa using h
    have : s.data = (c :: t).reverse := by rw [← hr, List.reverse_reverse]
    simp [List.dropWhile, hc, this]

theorem TrimRight_append (s t : String) (h : TrimRight t "." ≠ "") :
    TrimRight (s ++ t) "." = s ++ TrimRight t "." := by
  have h1 : (TrimRight t ".").data ≠ [] := fun e => h (String.ext e)
  rw [TrimRight_data] at h1
  apply String.ext
  simp only [TrimRight_data, String.data_append, List.reverse_append, List.dropWhile_append]
  have h2 : List.dropWhile (fun c => decide (c = '.')) t.data.reverse ≠ [] := by
    intro e; apply h1; rw [e]; rfl
  simp [h2]

theorem TrimRight_not_dot (s : String) : (TrimRight s ".").data.getLast? ≠ some '.' := by
  rw [TrimRight_data, List.getLast?_reverse]
  have := List.head?_dropWhile_not (fun c => decide (c = '.')) s.data.reverse
  intro e
  rw [e] at this
  simp at this

theorem TrimSuffix_append (s t : String) : TrimSuffix (s ++ t) t = s := by
  have : HasSuffix (s ++ t) t = true := by
    simp [HasSuffix, String.data_append]
  simp only [TrimSuffix, this, if_true]
  apply String.ext
  simp [String.data_append]

theorem shortName_of_zone (p Z : String) (hp : p.data.getLast? ≠ some '.')
    (hZ : TrimRight Z "." ≠ "") :
    TrimRight (p ++ "." ++ Z) "." = p ++ "." ++ TrimRight Z "." ∧
    shortName (p ++ "." ++ Z) Z = p := by
  have h1 : TrimRight (p ++ "." ++ Z) "." = p ++ "." ++ TrimRight Z "." :=
    TrimRight_append _ _ hZ
  refine ⟨h1, ?_⟩
  simp only [shortName, h1, TrimSuffix_append, TrimRight_append_dot]
  exact TrimRight_of_not_dot p hp


theorem HasSuffix_dot_false (s : String) (h : HasSuffix s "." = false) :
    s.data.getLast? ≠ some '.' := by
  intro e
  obtain ⟨ys, hys⟩ := List.getLast?_eq_some_iff.mp e
  have : HasSuffix s "." = true := by
    simp [HasSuffix, dot_data, hys]
  rw [this] at h
  exact Bool.noConfusion h

/-! ## Name derivation -/

/-- C8: for a label prefix `p` and a zone `z`, neither ending in a dot, the body that
`addTxtRecord` and `updateTxtRecord` build for `resolvedFQDN = p + "." + z + "."` and
`resolvedZone = z + "."` has the short name `p`; `_acme-challenge.foo.example.com.` in
`example.com.` gives `_acme-challenge.foo`, and `_acme-challenge.example.com.` in
`example.com.` gives `_acme-challenge`. -/
theorem shortName_label (cfg : porkbunDNSProviderConfig) (ch : ChallengeRequest)
    (p z : String) (hp : HasSuffix p "." = false) (hz : HasSuffix z "." = false)
    (hfqdn : ch.ResolvedFQDN = p ++ "." ++ z ++ ".") (hzone : ch.ResolvedZone = z ++ ".") :
    (createUpdateBody cfg ch).Name = p ∧
    shortName (p ++ "." ++ z ++ ".") (z ++ ".") = p ∧
    shortName "_acme-challenge.foo.example.com." "example.com." = "_acme-challenge.foo" ∧
    shortName "_acme-challenge.example.com." "example.com." = "_acme-challenge" := by
  have hp1 := HasSuffix_dot_false p hp
  have hz1 := HasSuffix_dot_false z hz
  have key : shortName (p ++ "." ++ z ++ ".") (z ++ ".") = p := by
    by_cases hz0 : z = ""
    · subst hz0
      have e1 : TrimRight (p ++ "." ++ "" ++ ".") "." = p := by
        rw [TrimRight_append_dot, String.append_empty, TrimRight_append_dot]
        exact TrimRight_of_not_dot p hp1
      have e2 : TrimRight ("" ++ ".") "." = "" := by decide
      have e3 : TrimSuffix p "" = p := by
        have := TrimSuffix_append p ""
        rwa [String.append_empty] at this
      simp only [shortName, e1, e2, e3]
      exact TrimRight_of_not_dot p hp1
    · have hzT : TrimRight z "." = z := TrimRight_of_not_dot z hz1
      have h := shortName_of_zone p (z ++ ".") hp1
        (by rw [TrimRight_append_dot, hzT]; exact hz0)
      have e1 : TrimRight (p ++ "." ++ z ++ ".") "." = p ++ "." ++ z := by
        rw [TrimRight_append_dot, TrimRight_append _ _ (by rw [hzT]; exact hz0), hzT]
      simp only [shortName, e1, TrimRight_append_dot, hzT, TrimSuffix_append]
      exact TrimRight_of_not_dot p hp1
  refine ⟨?_, key, by decide, by decide⟩
  simp only [createUpdateBody, hfqdn, hzone]
  exact key

/-- The derivation applied to `_acme-challenge.foo` in `example.com`. -/
theorem shortName_label_witness :
    (createUpdateBody inlineConfig
      ⟨"_acme-challenge.foo" ++ "." ++ "example.com" ++ ".", "example.com" ++ ".", "abc123",
        "default", none⟩).Name = "_acme-challenge.foo" :=
  (shortName_label inlineConfig
    ⟨"_acme-challenge.foo" ++ "." ++ "example.com" ++ ".", "example.com" ++ ".", "abc123",
      "default", none⟩ "_acme-challenge.foo" "example.com" (by decide) (by decide) rfl rfl).1

/-! ## Credential resolver -/

/-- C7: when the looked-up secret exists, a configuration with `apiKey` inline and no
inline `apiSecretKey` fails on a secret without an `apiSecretKey` entry, with the error
`key apiSecretKey not found in secret "<name>/<ns>"`, where `<ns>` is the namespace of
the reference if non-empty and the request's `resourceNamespace` otherwise; and
`loadApiKeys` fails whenever a key is empty inline and absent from the secret. -/
theorem loadApiKeys_missing_field {σ : Type} (env : Env σ) (cfg : porkbunDNSProviderConfig)
    (ch : ChallengeRequest) (sec : List (String × String))
    (hsec : env.Secrets
      (if cfg.APIKeysSecretRef.Namespace ≠ "" then cfg.APIKeysSecretRef.Namespace
       else ch.ResourceNamespace) cfg.APIKeysSecretRef.Name = Except.ok sec) :
    (cfg.APIkey ≠ "" → cfg.APISecretKey = "" → List.lookup "apiSecretKey" sec = none →
      loadApiKeys env cfg ch = Except.error
        ("key apiSecretKey not found in secret \"" ++ cfg.APIKeysSecretRef.Name ++ "/"
          ++ (if cfg.APIKeysSecretRef.Namespace ≠ "" then cfg.APIKeysSecretRef.Namespace
              else ch.ResourceNamespace) ++ "\"")) ∧
    ((cfg.APIkey = "" ∧ List.lookup "apiKey" sec = none) ∨
      (cfg.APISecretKey = "" ∧ List.lookup "apiSecretKey" sec = none) →
      ∃ msg, loadApiKeys env cfg ch = Except.error msg) := by
  constructor
  · intro hk hs hno
    simp only [loadApiKeys, hsec, hk, hs, hno]
    simp
  · rintro (⟨hk, hno⟩ | ⟨hs, hno⟩)
    · simp only [loadApiKeys, hsec, hk, hno]
      simp
    · simp only [loadApiKeys, hsec, hs, hno]
      rw [if_neg (by simp)]
      by_cases hk : cfg.APIkey = "" ∧ (List.lookup "apiKey" sec).isNone = true
      · rw [if_pos hk]
        exact ⟨_, rfl⟩
      · rw [if_neg hk, if_pos (by simp)]
        exact ⟨_, rfl⟩

/-- The secret `cert-manager/porkbun-keys` with only an `apiKey` entry, for `mixedConfig`. -/
theorem loadApiKeys_missing_field_witness :
    loadApiKeys (fixedEnv [("apiKey", "secret-key")] 200 "" none) mixedConfig mixedRequest
      = Except.error "key apiSecretKey not found in secret \"porkbun-keys/cert-manager\"" :=
  (loadApiKeys_missing_field (fixedEnv [("apiKey", "secret-key")] 200 "" none) mixedConfig
    mixedRequest [("apiKey", "secret-key")] (by decide)).1 (by decide) (by decide) (by decide)

/-- C6 (the code at the failing input): with `apiKey` inline as `inline-key` and
`apiSecretKey` left to the secret, `loadApiKeys` succeeds and the resolved `apiKey` is
the secret's entry `secret-key`, not the inline value; on a secret without an `apiKey`
entry the resolved `apiKey` is empty. -/
theorem loadApiKeys_overwrites_inline :
    loadApiKeys (fixedEnv [("apiKey", "secret-key"), ("apiSecretKey", "secret-secret")] 200 ""
        none) mixedConfig mixedRequest
      = Except.ok ⟨⟨"porkbun-keys", ""⟩, "secret-key", "secret-secret"⟩ ∧
    loadApiKeys (fixedEnv [("apiSecretKey", "secret-secret")] 200 "" none) mixedConfig
        mixedRequest
      = Except.ok ⟨⟨"porkbun-keys", ""⟩, "", "secret-secret"⟩ := by
  constructor <;> decide


/-! ## Search -/

theorem ifaceEq_eq_true (v : Option JVal) (s : String) (h : ifaceEq v s = true) :
    v = some (JVal.str s) := by
  unfold ifaceEq at h
  split at h
  · simp only [beq_iff_eq] at h
    rw [h]
  · exact Bool.noConfusion h

theorem scanRecords_sound (fqdn key : String) (items : List JVal) (r : porkbunRecord)
    (h : scanRecords fqdn key items = Outcome.ok (some r)) :
    r.Name = fqdn ∧ r.Content = key := by
  induction items with
  | nil => simp [scanRecords] at h
  | cons item rest ih =>
    cases item with
    | obj record =>
      rw [scanRecords] at h
      split at h
      · rename_i hm
        simp only [Bool.and_eq_true] at hm
        have hn := ifaceEq_eq_true _ _ hm.1
        have hc := ifaceEq_eq_true _ _ hm.2
        rw [hn, hc] at h
        split at h
        · rename_i id name typ content ttl e1 e2 e3 e4 e5
          simp only [assertString, Option.some.injEq] at e2 e4
          simp only [Outcome.ok.injEq, Option.some.injEq] at h
          rw [← h]
          exact ⟨e2.symm, e4.symm⟩
        · exact Outcome.noConfusion h
      · exact ih h
    | null => exact ih (by simpa [scanRecords] using h)
    | bool b => exact ih (by simpa [scanRecords] using h)
    | num n => exact ih (by simpa [scanRecords] using h)
    | str t => exact ih (by simpa [scanRecords] using h)
    | arr xs => exact ih (by simpa [scanRecords] using h)

theorem decodeRecord_isSome (item : JVal) (h : (decodeRecord item).isSome = true) :
    ∃ m id name typ content ttl, item = JVal.obj m ∧ index m "id" = some (JVal.str id) ∧
      index m "name" = some (JVal.str name) ∧ index m "type" = some (JVal.str typ) ∧
      index m "content" = some (JVal.str content) ∧ index m "ttl" = some (JVal.str ttl) ∧
      decodeRecord item = some ⟨id, name, typ, content, ttl, "", ""⟩ := by
  cases item with
  | obj m =>
    rw [decodeRecord] at h
    split at h
    · rename_i id name typ content ttl e1 e2 e3 e4 e5
      refine ⟨m, id, name, typ, content, ttl, rfl, e1, e2, e3, e4, e5, ?_⟩
      simp [decodeRecord, e1, e2, e3, e4, e5]
    · simp at h
  | null => simp [decodeRecord] at h
  | bool b => simp [decodeRecord] at h
  | num n => simp [decodeRecord] at h
  | str t => simp [decodeRecord] at h
  | arr xs => simp [decodeRecord] at h

theorem scanRecords_wellFormed (fqdn key : String) (items : List JVal)
    (hwf : ∀ item ∈ items, (decodeRecord item).isSome = true) :
    scanRecords fqdn key items = Outcome.ok (firstMatch fqdn key items) := by
  induction items with
  | nil => simp [scanRecords, firstMatch]
  | cons item rest ih =>
    have ih1 := ih (fun x hx => hwf x (List.mem_cons_of_mem _ hx))
    obtain ⟨m, id, name, typ, content, ttl, rfl, e1, e2, e3, e4, e5, hd⟩ :=
      decodeRecord_isSome item (hwf item (List.mem_cons_self _ _))
    have hfm : firstMatch fqdn key (JVal.obj m :: rest) =
        if name = fqdn ∧ content = key then some ⟨id, name, typ, content, ttl, "", ""⟩
        else firstMatch fqdn key rest := by
      simp only [firstMatch, List.filterMap_cons, hd, List.find?_cons]
      by_cases hc : name = fqdn ∧ content = key
      · simp [hc]
      · simp [hc]
    rw [hfm, scanRecords, e1, e2, e3, e4, e5]
    by_cases hc : name = fqdn ∧ content = key
    · simp [ifaceEq, assertString, hc]
    · rw [if_neg hc, ← ih1]
      have : (ifaceEq (some (JVal.str name)) fqdn && ifaceEq (some (JVal.str content)) key)
          = false := by
        simp only [ifaceEq, Bool.and_eq_false_imp, beq_iff_eq]
        intro hn
        simp only [beq_eq_false_iff_ne, ne_eq]
        exact fun hk => hc ⟨hn, hk⟩
      rw [this]
      simp

theorem searchRecords_calls {σ : Type} (env : Env σ) (cfg : porkbunDNSProviderConfig)
    (ch : ChallengeRequest) (w : σ) :
    (searchRecords env cfg ch w).calls =
      [⟨Endpoint.retrieve (TrimRight ch.ResolvedZone "."),
        Body.keys cfg.APISecretKey cfg.APIkey⟩] := by
  unfold searchRecords
  simp only
  split
  · rfl
  · split <;> rfl

theorem searchRecords_ok {σ : Type} (env : Env σ) (cfg : porkbunDNSProviderConfig)
    (ch : ChallengeRequest) (w w1 : σ) (response : Response)
    (hpost : env.post w (Endpoint.retrieve (TrimRight ch.ResolvedZone "."))
      (Body.keys cfg.APISecretKey cfg.APIkey) = (Except.ok response, w1))
    (h200 : response.statusCode = 200) :
    searchRecords env cfg ch w =
      ⟨searchBody (TrimRight ch.ResolvedFQDN ".") ch.Key response.body, w1,
        [⟨Endpoint.retrieve (TrimRight ch.ResolvedZone "."),
          Body.keys cfg.APISecretKey cfg.APIkey⟩]⟩ := by
  unfold searchRecords
  simp only [hpost, h200]
  simp

theorem searchRecords_sound {σ : Type} (env : Env σ) (cfg : porkbunDNSProviderConfig)
    (ch : ChallengeRequest) (w : σ) (r : porkbunRecord)
    (h : (searchRecords env cfg ch w).out = Outcome.ok (some r)) :
    r.Name = TrimRight ch.ResolvedFQDN "." ∧ r.Content = ch.Key := by
  unfold searchRecords at h
  simp only at h
  split at h
  · exact Outcome.noConfusion h
  · split at h
    · exact Outcome.noConfusion h
    · simp only [searchBody] at h
      split at h
      · split at h
        · exact scanRecords_sound _ _ _ _ h
        · exact Outcome.noConfusion h
      · exact Outcome.noConfusion h


/-- C4: on an HTTP-200 answer whose `records` is a sequence of objects with string
fields `id`, `name`, `type`, `content`, `ttl`, `searchRecords` returns the first record,
in the order of the response, whose name is `resolvedFQDN` without trailing dots and
whose content is the request key, copied field by field; it returns not-found exactly
when no record has both. -/
theorem searchRecords_first_match {σ : Type} (env : Env σ) (cfg : porkbunDNSProviderConfig)
    (ch : ChallengeRequest) (w w1 : σ) (response : Response)
    (result : List (String × JVal)) (items : List JVal)
    (hpost : env.post w (Endpoint.retrieve (TrimRight ch.ResolvedZone "."))
      (Body.keys cfg.APISecretKey cfg.APIkey) = (Except.ok response, w1))
    (h200 : response.statusCode = 200)
    (hbody : response.body = some (JVal.obj result))
    (hrecs : index result "records" = some (JVal.arr items))
    (hwf : ∀ item ∈ items, (decodeRecord item).isSome = true) :
    (searchRecords env cfg ch w).out =
      Outcome.ok ((items.filterMap decodeRecord).find?
        (fun r => decide (r.Name = TrimRight ch.ResolvedFQDN "." ∧ r.Content = ch.Key))) ∧
    ((searchRecords env cfg ch w).out = Outcome.ok none ↔
      ∀ r ∈ items.filterMap decodeRecord,
        ¬ (r.Name = TrimRight ch.ResolvedFQDN "." ∧ r.Content = ch.Key)) := by
  have h := searchRecords_ok env cfg ch w w1 response hpost h200
  have hout : (searchRecords env cfg ch w).out =
      Outcome.ok (firstMatch (TrimRight ch.ResolvedFQDN ".") ch.Key items) := by
    rw [h]
    simp only [searchBody, hbody, hrecs]
    exact scanRecords_wellFormed _ _ _ hwf
  refine ⟨hout, ?_⟩
  rw [hout]
  simp only [Outcome.ok.injEq, firstMatch, List.find?_eq_none, decide_eq_true_eq]

/-- The search of `exampleRequest` in a response with two records of its name. -/
theorem searchRecords_first_match_witness :
    (searchRecords (fixedEnv [] 200 "" (some twoRecordsBody)) inlineConfig exampleRequest ()).out
      = Outcome.ok (some ⟨"42", "_acme-challenge.example.com", "TXT", "abc123", "600", "", ""⟩) :=
  (searchRecords_first_match (fixedEnv [] 200 "" (some twoRecordsBody)) inlineConfig
    exampleRequest () () ⟨200, "", "", some twoRecordsBody⟩ _ _ rfl rfl rfl rfl
    (by decide)).1.trans (by decide)

/-! ## Reconciler -/

theorem Present_of_credentials {σ : Type} (env : Env σ) (ch : ChallengeRequest) (w : σ)
    (cfg : porkbunDNSProviderConfig) (hcred : credentials env ch = Except.ok cfg) :
    Present env ch w = presentAfterSearch env cfg ch (searchRecords env cfg ch w) := by
  unfold credentials at hcred
  unfold Present
  split at hcred
  · exact Except.noConfusion hcred
  · split at hcred
    · exact Except.noConfusion hcred
    · simp only [hcred]

theorem CleanUp_of_credentials {σ : Type} (env : Env σ) (ch : ChallengeRequest) (w : σ)
    (cfg : porkbunDNSProviderConfig) (hcred : credentials env ch = Except.ok cfg) :
    CleanUp env ch w = cleanUpAfterSearch env cfg ch (searchRecords env cfg ch w) := by
  unfold credentials at hcred
  unfold CleanUp
  split at hcred
  · exact Except.noConfusion hcred
  · split at hcred
    · exact Except.noConfusion hcred
    · simp only [hcred]

theorem Present_no_credentials {σ : Type} (env : Env σ) (ch : ChallengeRequest) (w : σ)
    (err : String) (hcred : credentials env ch = Except.error err) :
    Present env ch w = ⟨Outcome.error err, w, []⟩ := by
  unfold credentials at hcred
  unfold Present
  split at hcred
  · rw [Except.error.injEq] at hcred
    simp only [hcred]
  · split at hcred
    · rw [Except.error.injEq] at hcred
      simp only [hcred]
    · simp only [hcred]

theorem addTxtRecord_calls {σ : Type} (env : Env σ) (cfg : porkbunDNSProviderConfig)
    (ch : ChallengeRequest) (w : σ) :
    (addTxtRecord env cfg ch w).calls =
      [⟨Endpoint.create (TrimRight ch.ResolvedZone "."),
        Body.record (createUpdateBody cfg ch)⟩] := by
  unfold addTxtRecord
  simp only
  split
  · rfl
  · split <;> rfl

theorem deleteTXTRecord_calls {σ : Type} (env : Env σ) (cfg : porkbunDNSProviderConfig)
    (ch : ChallengeRequest) (r : porkbunRecord) (w : σ) :
    (deleteTXTRecord env cfg ch r w).calls =
      [⟨Endpoint.delete (TrimRight ch.ResolvedZone ".") r.ID,
        Body.keys cfg.APISecretKey cfg.APIkey⟩] := by
  unfold deleteTXTRecord
  simp only
  split
  · rfl
  · split <;> rfl

theorem presentAfterSearch_found {σ : Type} (env : Env σ) (cfg : porkbunDNSProviderConfig)
    (ch : ChallengeRequest) (w : σ) (r : porkbunRecord)
    (h : (searchRecords env cfg ch w).out = Outcome.ok (some r)) :
    presentAfterSearch env cfg ch (searchRecords env cfg ch w) =
      ⟨Outcome.ok (), (searchRecords env cfg ch w).world, (searchRecords env cfg ch w).calls⟩ := by
  have hc := (searchRecords_sound env cfg ch w r h).2
  unfold presentAfterSearch
  simp only [h, hc, ne_eq, not_true_eq_false, if_false]

theorem presentAfterSearch_none_calls {σ : Type} (env : Env σ) (cfg : porkbunDNSProviderConfig)
    (ch : ChallengeRequest) (w : σ)
    (h : (searchRecords env cfg ch w).out = Outcome.ok none) :
    (presentAfterSearch env cfg ch (searchRecords env cfg ch w)).calls =
      [⟨Endpoint.retrieve (TrimRight ch.ResolvedZone "."),
          Body.keys cfg.APISecretKey cfg.APIkey⟩,
        ⟨Endpoint.create (TrimRight ch.ResolvedZone "."),
          Body.record (createUpdateBody cfg ch)⟩] := by
  unfold presentAfterSearch
  simp only [h]
  split <;> simp [searchRecords_calls, addTxtRecord_calls]

theorem presentAfterSearch_calls {σ : Type} (env : Env σ) (cfg : porkbunDNSProviderConfig)
    (ch : ChallengeRequest) (w : σ) :
    (presentAfterSearch env cfg ch (searchRecords env cfg ch w)).calls =
        [⟨Endpoint.retrieve (TrimRight ch.ResolvedZone "."),
          Body.keys cfg.APISecretKey cfg.APIkey⟩] ∨
    (presentAfterSearch env cfg ch (searchRecords env cfg ch w)).calls =
        [⟨Endpoint.retrieve (TrimRight ch.ResolvedZone "."),
            Body.keys cfg.APISecretKey cfg.APIkey⟩,
          ⟨Endpoint.create (TrimRight ch.ResolvedZone "."),
            Body.record (createUpdateBody cfg ch)⟩] := by
  cases hs : (searchRecords env cfg ch w).out with
  | error err =>
    left
    unfold presentAfterSearch
    simp only [hs, searchRecords_calls]
  | panic =>
    left
    unfold presentAfterSearch
    simp only [hs, searchRecords_calls]
  | ok found =>
    cases found with
    | none => exact Or.inr (presentAfterSearch_none_calls env cfg ch w hs)
    | some r =>
      left
      rw [presentAfterSearch_found env cfg ch w r hs]
      exact searchRecords_calls env cfg ch w

/-- C2: the record `searchRecords` hands to `Present`, if any, has the name of the FQDN
without trailing dots and the token of the request as content, and `Present` issues no
edit and no delete: every call it makes is the search or a create in the zone of the
request. -/
theorem Present_content_isolation {σ : Type} (env : Env σ) (ch : ChallengeRequest) (w : σ) :
    (∀ cfg r, (searchRecords env cfg ch w).out = Outcome.ok (some r) →
      r.Name = TrimRight ch.ResolvedFQDN "." ∧ r.Content = ch.Key) ∧
    (∀ c ∈ (Present env ch w).calls,
      (∀ zone id, c.endpoint ≠ Endpoint.edit zone id ∧ c.endpoint ≠ Endpoint.delete zone id) ∧
      (c.endpoint.mutating = true →
        c.endpoint = Endpoint.create (TrimRight ch.ResolvedZone "."))) := by
  refine ⟨fun cfg r h => searchRecords_sound env cfg ch w r h, ?_⟩
  have key : ∀ c ∈ (Present env ch w).calls,
      c.endpoint = Endpoint.retrieve (TrimRight ch.ResolvedZone ".") ∨
      c.endpoint = Endpoint.create (TrimRight ch.ResolvedZone ".") := by
    intro c hc
    cases hcred : credentials env ch with
    | error err =>
      rw [Present_no_credentials env ch w err hcred] at hc
      simp at hc
    | ok cfg =>
      rw [Present_of_credentials env ch w cfg hcred] at hc
      rcases presentAfterSearch_calls env cfg ch w with h | h
      · rw [h] at hc
        simp only [List.mem_singleton] at hc
        left; rw [hc]
      · rw [h] at hc
        simp only [List.mem_cons, List.mem_singleton, List.not_mem_nil, or_false] at hc
        rcases hc with hc | hc
        · left; rw [hc]
        · right; rw [hc]
  intro c hc
  rcases key c hc with h | h
  · rw [h]
    exact ⟨fun zone id => ⟨Endpoint.noConfusion, Endpoint.noConfusion⟩,
      fun hm => Bool.noConfusion hm⟩
  · rw [h]
    exact ⟨fun zone id => ⟨Endpoint.noConfusion, Endpoint.noConfusion⟩, fun _ => rfl⟩


theorem deleteTXTRecord_run {σ : Type} (env : Env σ) (cfg : porkbunDNSProviderConfig)
    (ch : ChallengeRequest) (r : porkbunRecord) (w : σ) :
    (deleteTXTRecord env cfg ch r w).world =
      (env.post w (Endpoint.delete (TrimRight ch.ResolvedZone ".") r.ID)
        (Body.keys cfg.APISecretKey cfg.APIkey)).2 ∧
    (∀ err, (env.post w (Endpoint.delete (TrimRight ch.ResolvedZone ".") r.ID)
        (Body.keys cfg.APISecretKey cfg.APIkey)).1 = Except.error err →
      (deleteTXTRecord env cfg ch r w).out = Outcome.error err) ∧
    (∀ response, (env.post w (Endpoint.delete (TrimRight ch.ResolvedZone ".") r.ID)
        (Body.keys cfg.APISecretKey cfg.APIkey)).1 = Except.ok response →
      (response.statusCode = 400 →
        (deleteTXTRecord env cfg ch r w).out =
          Outcome.error ("error deleting TXT record: " ++ response.string)) ∧
      (response.statusCode ≠ 400 → (deleteTXTRecord env cfg ch r w).out = Outcome.ok ())) := by
  unfold deleteTXTRecord
  simp only
  rcases hp : env.post w (Endpoint.delete (TrimRight ch.ResolvedZone ".") r.ID)
      (Body.keys cfg.APISecretKey cfg.APIkey) with ⟨reply, w2⟩
  cases reply with
  | error err => simp
  | ok response =>
    by_cases h400 : response.statusCode = 400
    · simp [h400]
    · simp [h400]

/-- C3: for a request with resolvable credentials and an HTTP-200 search answer with
well-formed records, when some record has the name of the FQDN and the request key as
content `CleanUp` issues, after the search, exactly one call, the delete of the id of
the first such record: the provider is left in the state that POST produces, and
`CleanUp` returns what the POST decides (the transport error, an error on status 400,
success otherwise).  When no record has both, `CleanUp` issues the search only, leaves
the provider as the search left it and returns success. -/
theorem CleanUp_deletes_first_match {σ : Type} (env : Env σ) (ch : ChallengeRequest)
    (cfg : porkbunDNSProviderConfig) (w w1 : σ) (response : Response)
    (result : List (String × JVal)) (items : List JVal)
    (hcred : credentials env ch = Except.ok cfg)
    (hpost : env.post w (Endpoint.retrieve (TrimRight ch.ResolvedZone "."))
      (Body.keys cfg.APISecretKey cfg.APIkey) = (Except.ok response, w1))
    (h200 : response.statusCode = 200)
    (hbody : response.body = some (JVal.obj result))
    (hrecs : index result "records" = some (JVal.arr items))
    (hwf : ∀ item ∈ items, (decodeRecord item).isSome = true) :
    (∀ r, (items.filterMap decodeRecord).find?
        (fun r => decide (r.Name = TrimRight ch.ResolvedFQDN "." ∧ r.Content = ch.Key)) = some r →
      (CleanUp env ch w).calls =
        [⟨Endpoint.retrieve (TrimRight ch.ResolvedZone "."),
            Body.keys cfg.APISecretKey cfg.APIkey⟩,
          ⟨Endpoint.delete (TrimRight ch.ResolvedZone ".") r.ID,
            Body.keys cfg.APISecretKey cfg.APIkey⟩] ∧
      (CleanUp env ch w).world =
        (env.post w1 (Endpoint.delete (TrimRight ch.ResolvedZone ".") r.ID)
          (Body.keys cfg.APISecretKey cfg.APIkey)).2 ∧
      (∀ err, (env.post w1 (Endpoint.delete (TrimRight ch.ResolvedZone ".") r.ID)
          (Body.keys cfg.APISecretKey cfg.APIkey)).1 = Except.error err →
        (CleanUp env ch w).out = Outcome.error err) ∧
      (∀ answer, (env.post w1 (Endpoint.delete (TrimRight ch.ResolvedZone ".") r.ID)
          (Body.keys cfg.APISecretKey cfg.APIkey)).1 = Except.ok answer →
        (answer.statusCode = 400 →
          (CleanUp env ch w).out =
            Outcome.error ("error deleting TXT record: " ++ answer.string)) ∧
        (answer.statusCode ≠ 400 → (CleanUp env ch w).out = Outcome.ok ()))) ∧
    ((∀ r ∈ items.filterMap decodeRecord,
        ¬ (r.Name = TrimRight ch.ResolvedFQDN "." ∧ r.Content = ch.Key)) →
      (CleanUp env ch w).calls =
        [⟨Endpoint.retrieve (TrimRight ch.ResolvedZone "."),
            Body.keys cfg.APISecretKey cfg.APIkey⟩] ∧
      (CleanUp env ch w).out = Outcome.ok () ∧ (CleanUp env ch w).world = w1) := by
  have hs := searchRecords_ok env cfg ch w w1 response hpost h200
  have hout : searchBody (TrimRight ch.ResolvedFQDN ".") ch.Key response.body =
      Outcome.ok (firstMatch (TrimRight ch.ResolvedFQDN ".") ch.Key items) := by
    simp only [searchBody, hbody, hrecs]
    exact scanRecords_wellFormed _ _ _ hwf
  rw [CleanUp_of_credentials env ch w cfg hcred, hs, hout]
  constructor
  · intro r hr
    have : firstMatch (TrimRight ch.ResolvedFQDN ".") ch.Key items = some r := hr
    have hd := deleteTXTRecord_run env cfg ch r w1
    simp only [cleanUpAfterSearch, this, deleteTXTRecord_calls, List.singleton_append,
      true_and]
    exact hd
  · intro hnone
    have : firstMatch (TrimRight ch.ResolvedFQDN ".") ch.Key items = none := by
      simp only [firstMatch, List.find?_eq_none, decide_eq_true_eq]
      exact hnone
    simp only [cleanUpAfterSearch, this, and_self]

/-- The delete path of the scenarios against the list-of-records provider: record `42`
has the name and the token, record `41` has the name and another token; after
`CleanUp` only record `41` is left. -/
theorem CleanUp_deletes_first_match_witness :
    (CleanUp plainProvider.env exampleRequest twoRecords).calls =
      [⟨Endpoint.retrieve "example.com", Body.keys "sk1_secret" "pk1_key"⟩,
       ⟨Endpoint.delete "example.com" "42", Body.keys "sk1_secret" "pk1_key"⟩] ∧
    (CleanUp plainProvider.env exampleRequest twoRecords).world =
      [⟨"41", "_acme-challenge.example.com", "TXT", "other-token", "600", "", ""⟩] :=
  ⟨((CleanUp_deletes_first_match plainProvider.env exampleRequest inlineConfig twoRecords
      twoRecords
      ⟨200, "200 OK", "", some (JVal.obj [("status", JVal.str "SUCCESS"),
        ("records", JVal.arr (twoRecords.map recordJSON))])⟩ _ _ (by decide) rfl rfl rfl rfl
      (by decide)).1 ⟨"42", "_acme-challenge.example.com", "TXT", "abc123", "600", "", ""⟩
      (by decide)).1.trans (by decide),
   ((CleanUp_deletes_first_match plainProvider.env exampleRequest inlineConfig twoRecords
      twoRecords
      ⟨200, "200 OK", "", some (JVal.obj [("status", JVal.str "SUCCESS"),
        ("records", JVal.arr (twoRecords.map recordJSON))])⟩ _ _ (by decide) rfl rfl rfl rfl
      (by decide)).1 ⟨"42", "_acme-challenge.example.com", "TXT", "abc123", "600", "", ""⟩
      (by decide)).2.1.trans (by decide)⟩

theorem presentAfterSearch_none_world {σ : Type} (env : Env σ)
    (cfg : porkbunDNSProviderConfig) (ch : ChallengeRequest) (w : σ)
    (h : (searchRecords env cfg ch w).out = Outcome.ok none) :
    (presentAfterSearch env cfg ch (searchRecords env cfg ch w)).world =
      (env.post (searchRecords env cfg ch w).world
        (Endpoint.create (TrimRight ch.ResolvedZone "."))
        (Body.record (createUpdateBody cfg ch))).2 := by
  unfold presentAfterSearch
  simp only [h]
  unfold addTxtRecord
  simp only
  rcases hp : env.post (searchRecords env cfg ch w).world
      (Endpoint.create (TrimRight ch.ResolvedZone "."))
      (Body.record (createUpdateBody cfg ch)) with ⟨reply, w2⟩
  cases reply with
  | error err => simp
  | ok response =>
    by_cases h400 : response.statusCode = 400
    · simp [h400]
    · simp [h400]

/-- C5: for a request with resolvable credentials whose search finds no record,
`Present` issues the search and then exactly one more call, a create at the endpoint of
the zone without trailing dots, whose body carries the two resolved credentials, the
derived short name, type `TXT`, the request key as content and ttl `600`, and it leaves
the provider in the state that POST produces; for `_acme-challenge.example.com.` in
`example.com.` with token `abc123` the body has name `_acme-challenge`, type `TXT`,
content `abc123`, ttl `600`. -/
theorem Present_create_path {σ : Type} (env : Env σ) (ch : ChallengeRequest)
    (cfg : porkbunDNSProviderConfig) (w : σ)
    (hcred : credentials env ch = Except.ok cfg)
    (hsearch : (searchRecords env cfg ch w).out = Outcome.ok none) :
    (Present env ch w).calls =
      [⟨Endpoint.retrieve (TrimRight ch.ResolvedZone "."),
          Body.keys cfg.APISecretKey cfg.APIkey⟩,
        ⟨Endpoint.create (TrimRight ch.ResolvedZone "."),
          Body.record ⟨cfg.APISecretKey, cfg.APIkey,
            shortName ch.ResolvedFQDN ch.ResolvedZone, "600", "TXT", ch.Key⟩⟩] ∧
    (Present env ch w).world =
      (env.post (searchRecords env cfg ch w).world
        (Endpoint.create (TrimRight ch.ResolvedZone "."))
        (Body.record ⟨cfg.APISecretKey, cfg.APIkey,
          shortName ch.ResolvedFQDN ch.ResolvedZone, "600", "TXT", ch.Key⟩)).2 ∧
    ((Present env ch w).calls.filter (fun c => c.endpoint.mutating)).length = 1 ∧
    (ch.ResolvedFQDN = "_acme-challenge.example.com." → ch.ResolvedZone = "example.com." →
      ch.Key = "abc123" →
      (Present env ch w).calls =
        [⟨Endpoint.retrieve "example.com", Body.keys cfg.APISecretKey cfg.APIkey⟩,
          ⟨Endpoint.create "example.com",
            Body.record ⟨cfg.APISecretKey, cfg.APIkey, "_acme-challenge", "600", "TXT",
              "abc123"⟩⟩] ∧
      (Present env ch w).world =
        (env.post (searchRecords env cfg ch w).world (Endpoint.create "example.com")
          (Body.record ⟨cfg.APISecretKey, cfg.APIkey, "_acme-challenge", "600", "TXT",
            "abc123"⟩)).2) := by
  have h : (Present env ch w).calls =
      [⟨Endpoint.retrieve (TrimRight ch.ResolvedZone "."),
          Body.keys cfg.APISecretKey cfg.APIkey⟩,
        ⟨Endpoint.create (TrimRight ch.ResolvedZone "."),
          Body.record (createUpdateBody cfg ch)⟩] := by
    rw [Present_of_credentials env ch w cfg hcred]
    exact presentAfterSearch_none_calls env cfg ch w hsearch
  have hw : (Present env ch w).world =
      (env.post (searchRecords env cfg ch w).world
        (Endpoint.create (TrimRight ch.ResolvedZone "."))
        (Body.record (createUpdateBody cfg ch))).2 := by
    rw [Present_of_credentials env ch w cfg hcred]
    exact presentAfterSearch_none_world env cfg ch w hsearch
  refine ⟨h, hw, ?_, ?_⟩
  · rw [h]
    rfl
  · intro hf hz hk
    have e1 : TrimRight "example.com." "." = "example.com" := by decide
    have e2 : shortName "_acme-challenge.example.com." "example.com." = "_acme-challenge" := by
      decide
    have hb : createUpdateBody cfg ch =
        ⟨cfg.APISecretKey, cfg.APIkey, "_acme-challenge", "600", "TXT", "abc123"⟩ := by
      simp only [createUpdateBody, hf, hz, hk, e2]
    have hzT : TrimRight ch.ResolvedZone "." = "example.com" := by rw [hz, e1]
    rw [hzT, hb] at h hw
    exact ⟨h, hw⟩

/-- The create path of the scenarios, against a provider without records: the create
is issued and the provider holds the new record. -/
theorem Present_create_path_witness :
    (Present plainProvider.env exampleRequest []).calls =
      [⟨Endpoint.retrieve "example.com", Body.keys "sk1_secret" "pk1_key"⟩,
        ⟨Endpoint.create "example.com",
          Body.record ⟨"sk1_secret", "pk1_key", "_acme-challenge", "600", "TXT", "abc123"⟩⟩] ∧
    (Present plainProvider.env exampleRequest []).world =
      [⟨"0", "_acme-challenge.example.com", "TXT", "abc123", "600", "", ""⟩] :=
  ⟨((Present_create_path plainProvider.env exampleRequest inlineConfig [] (by decide)
      (by decide)).2.2.2 rfl rfl rfl).1,
   ((Present_create_path plainProvider.env exampleRequest inlineConfig [] (by decide)
      (by decide)).2.2.2 rfl rfl rfl).2.trans (by decide)⟩

/-- C9: for a request with resolvable credentials whose search finds no record,
`Present` returns an error exactly when the create fails in transport or is answered
with status 400; on a 400 the error message ends with the body of the answer; on a
transport failure the error is that failure; on any other status `Present` succeeds. -/
theorem Present_create_failure {σ : Type} (env : Env σ) (ch : ChallengeRequest)
    (cfg : porkbunDNSProviderConfig) (w : σ)
    (hcred : credentials env ch = Except.ok cfg)
    (hsearch : (searchRecords env cfg ch w).out = Outcome.ok none) :
    ((∃ msg, (Present env ch w).out = Outcome.error msg) ↔
      ((∃ err, (env.post (searchRecords env cfg ch w).world
          (Endpoint.create (TrimRight ch.ResolvedZone "."))
          (Body.record (createUpdateBody cfg ch))).1 = Except.error err) ∨
       (∃ response, (env.post (searchRecords env cfg ch w).world
          (Endpoint.create (TrimRight ch.ResolvedZone "."))
          (Body.record (createUpdateBody cfg ch))).1 = Except.ok response ∧
          response.statusCode = 400))) ∧
    (∀ response, (env.post (searchRecords env cfg ch w).world
        (Endpoint.create (TrimRight ch.ResolvedZone "."))
        (Body.record (createUpdateBody cfg ch))).1 = Except.ok response →
      (response.statusCode = 400 →
        (Present env ch w).out =
          Outcome.error ("error updating TXT record: " ++ response.string)) ∧
      (response.statusCode ≠ 400 → (Present env ch w).out = Outcome.ok ())) ∧
    (∀ err, (env.post (searchRecords env cfg ch w).world
        (Endpoint.create (TrimRight ch.ResolvedZone "."))
        (Body.record (createUpdateBody cfg ch))).1 = Except.error err →
      (Present env ch w).out = Outcome.error err) := by
  rw [Present_of_credentials env ch w cfg hcred]
  unfold presentAfterSearch
  simp only [hsearch]
  unfold addTxtRecord
  simp only
  rcases hp : env.post (searchRecords env cfg ch w).world
      (Endpoint.create (TrimRight ch.ResolvedZone "."))
      (Body.record (createUpdateBody cfg ch)) with ⟨reply, w2⟩
  cases reply with
  | error err => simp
  | ok response =>
    by_cases h400 : response.statusCode = 400
    · simp [h400]
    · simp [h400]

/-- The rejection scenario: the search finds nothing and the create is answered 400. -/
theorem Present_create_failure_witness :
    (Present ({ plainProvider with rejects := fun ep _ => !(ep == Endpoint.retrieve "example.com"),
                                   text := fun _ => "\x7b\"status\":\"ERROR\"\x7d" }).env
        exampleRequest []).out
      = Outcome.error ("error updating TXT record: " ++ "\x7b\"status\":\"ERROR\"\x7d") :=
  ((Present_create_failure
      ({ plainProvider with rejects := fun ep _ => !(ep == Endpoint.retrieve "example.com"),
                            text := fun _ => "\x7b\"status\":\"ERROR\"\x7d" }).env
      exampleRequest inlineConfig [] (by decide) (by decide)).2.1
      ⟨400, "400 Bad Request", "\x7b\"status\":\"ERROR\"\x7d", none⟩ rfl).1 rfl


/-- C10 (the code at the failing inputs): on an HTTP-200 answer whose body is not valid
JSON, or has no `records` sequence, or has a record of the requested name and token
with a numeric `id`, `searchRecords` ends in the run-time fault of a failed type
assertion instead of returning an error, and so do `Present` and `CleanUp`; no call
other than the search is issued. -/
theorem searchRecords_malformed_panics :
    (searchRecords (fixedEnv [] 200 "<html>" none) inlineConfig exampleRequest ()).out
      = Outcome.panic ∧
    (searchRecords (fixedEnv [] 200 "" (some (JVal.obj [("status", JVal.str "SUCCESS")])))
      inlineConfig exampleRequest ()).out = Outcome.panic ∧
    (searchRecords (fixedEnv [] 200 "" (some numericIdBody)) inlineConfig exampleRequest ()).out
      = Outcome.panic ∧
    (Present (fixedEnv [] 200 "<html>" none) exampleRequest ()).out = Outcome.panic ∧
    (CleanUp (fixedEnv [] 200 "<html>" none) exampleRequest ()).out = Outcome.panic ∧
    (Present (fixedEnv [] 200 "<html>" none) exampleRequest ()).calls =
      [⟨Endpoint.retrieve "example.com", Body.keys "sk1_secret" "pk1_key"⟩] ∧
    (CleanUp (fixedEnv [] 200 "<html>" none) exampleRequest ()).calls =
      [⟨Endpoint.retrieve "example.com", Body.keys "sk1_secret" "pk1_key"⟩] := by
  refine ⟨?_, ?_, ?_, ?_, ?_, ?_, ?_⟩ <;> decide

/-! ## Idempotence against the list-of-records provider -/

theorem scanRecords_recordJSON (fqdn key : String) (recs : List porkbunRecord) :
    scanRecords fqdn key (recs.map recordJSON) =
      Outcome.ok ((recs.find? (fun r => decide (r.Name = fqdn ∧ r.Content = key))).map
        (fun r => ⟨r.ID, r.Name, r.Type_, r.Content, r.TTL, "", ""⟩)) := by
  induction recs with
  | nil => rfl
  | cons r rest ih =>
    have e1 : index [("id", JVal.str r.ID), ("name", JVal.str r.Name),
        ("type", JVal.str r.Type_), ("content", JVal.str r.Content), ("ttl", JVal.str r.TTL),
        ("prio", JVal.str r.Prio), ("notes", JVal.str r.Notes)] "id" = some (JVal.str r.ID) := by
      simp [index, List.lookup]
    have e2 : index [("id", JVal.str r.ID), ("name", JVal.str r.Name),
        ("type", JVal.str r.Type_), ("content", JVal.str r.Content), ("ttl", JVal.str r.TTL),
        ("prio", JVal.str r.Prio), ("notes", JVal.str r.Notes)] "name"
          = some (JVal.str r.Name) := by
      simp [index, List.lookup]
    have e3 : index [("id", JVal.str r.ID), ("name", JVal.str r.Name),
        ("type", JVal.str r.Type_), ("content", JVal.str r.Content), ("ttl", JVal.str r.TTL),
        ("prio", JVal.str r.Prio), ("notes", JVal.str r.Notes)] "type"
          = some (JVal.str r.Type_) := by
      simp [index, List.lookup]
    have e4 : index [("id", JVal.str r.ID), ("name", JVal.str r.Name),
        ("type", JVal.str r.Type_), ("content", JVal.str r.Content), ("ttl", JVal.str r.TTL),
        ("prio", JVal.str r.Prio), ("notes", JVal.str r.Notes)] "content"
          = some (JVal.str r.Content) := by
      simp [index, List.lookup]
    have e5 : index [("id", JVal.str r.ID), ("name", JVal.str r.Name),
        ("type", JVal.str r.Type_), ("content", JVal.str r.Content), ("ttl", JVal.str r.TTL),
        ("prio", JVal.str r.Prio), ("notes", JVal.str r.Notes)] "ttl"
          = some (JVal.str r.TTL) := by
      simp [index, List.lookup]
    rw [List.map_cons, recordJSON, scanRecords, e1, e2, e3, e4, e5, ih, List.find?_cons]
    by_cases hc : r.Name = fqdn ∧ r.Content = key
    · simp [ifaceEq, assertString, hc]
    · have : (ifaceEq (some (JVal.str r.Name)) fqdn && ifaceEq (some (JVal.str r.Content)) key)
          = false := by
        simp only [ifaceEq, Bool.and_eq_false_imp, beq_iff_eq]
        intro hn
        simp only [beq_eq_false_iff_ne, ne_eq]
        exact fun hk => hc ⟨hn, hk⟩
      rw [this]
      simp [hc]

theorem model_search_world (m : ProviderModel) (cfg : porkbunDNSProviderConfig)
    (ch : ChallengeRequest) (recs : List porkbunRecord) :
    (searchRecords m.env cfg ch recs).world = recs := by
  unfold searchRecords
  simp only [ProviderModel.env, ProviderModel.post]
  by_cases hr : m.rejects (Endpoint.retrieve (TrimRight ch.ResolvedZone "."))
      (Body.keys cfg.APISecretKey cfg.APIkey) = true
  · simp [hr]
  · simp [hr]

theorem model_search_out (m : ProviderModel) (cfg : porkbunDNSProviderConfig)
    (ch : ChallengeRequest) :
    (∀ recs1, ∃ msg, (searchRecords m.env cfg ch recs1).out = Outcome.error msg) ∨
    (∀ recs1, (searchRecords m.env cfg ch recs1).out =
      Outcome.ok ((recs1.find? (fun r => decide (r.Name = TrimRight ch.ResolvedFQDN "." ∧
          r.Content = ch.Key))).map
        (fun r => ⟨r.ID, r.Name, r.Type_, r.Content, r.TTL, "", ""⟩))) := by
  by_cases hr : m.rejects (Endpoint.retrieve (TrimRight ch.ResolvedZone "."))
      (Body.keys cfg.APISecretKey cfg.APIkey) = true
  · left
    intro recs1
    unfold searchRecords
    simp only [ProviderModel.env, ProviderModel.post, hr, if_true]
    simp only [ne_eq, Nat.reduceEqDiff, not_false_eq_true, if_true]
    exact ⟨_, rfl⟩
  · right
    intro recs1
    unfold searchRecords
    simp only [ProviderModel.env, ProviderModel.post, hr]
    simp only [Bool.false_eq_true, if_false, ne_eq, not_true_eq_false, searchBody, index,
      List.lookup]
    simp [scanRecords_recordJSON]


theorem model_Present_found (m : ProviderModel) (cfg : porkbunDNSProviderConfig)
    (ch : ChallengeRequest) (recs : List porkbunRecord) (r : porkbunRecord)
    (hcred : credentials m.env ch = Except.ok cfg)
    (h : (searchRecords m.env cfg ch recs).out = Outcome.ok (some r)) :
    Present m.env ch recs =
      ⟨Outcome.ok (), recs, [⟨Endpoint.retrieve (TrimRight ch.ResolvedZone "."),
        Body.keys cfg.APISecretKey cfg.APIkey⟩]⟩ := by
  rw [Present_of_credentials m.env ch recs cfg hcred,
    presentAfterSearch_found m.env cfg ch recs r h, model_search_world, searchRecords_calls]

theorem model_add_rejected (m : ProviderModel) (cfg : porkbunDNSProviderConfig)
    (ch : ChallengeRequest) (recs : List porkbunRecord)
    (hr : m.rejects (Endpoint.create (TrimRight ch.ResolvedZone "."))
      (Body.record (createUpdateBody cfg ch)) = true) :
    ∃ msg, (addTxtRecord m.env cfg ch recs).out = Outcome.error msg := by
  unfold addTxtRecord
  simp only [ProviderModel.env, ProviderModel.post, hr, if_true]
  exact ⟨_, rfl⟩

theorem model_add_accepted (m : ProviderModel) (cfg : porkbunDNSProviderConfig)
    (ch : ChallengeRequest) (recs : List porkbunRecord)
    (hr : ¬ m.rejects (Endpoint.create (TrimRight ch.ResolvedZone "."))
      (Body.record (createUpdateBody cfg ch)) = true) :
    addTxtRecord m.env cfg ch recs =
      ⟨Outcome.ok none,
        recs ++ [⟨m.newID recs,
          shortName ch.ResolvedFQDN ch.ResolvedZone ++ "." ++ TrimRight ch.ResolvedZone ".",
          "TXT", ch.Key, "600", "", ""⟩],
        [⟨Endpoint.create (TrimRight ch.ResolvedZone "."),
          Body.record (createUpdateBody cfg ch)⟩]⟩ := by
  unfold addTxtRecord
  simp only [ProviderModel.env, ProviderModel.post, hr]
  simp [createUpdateBody]

/-- C1: against the list-of-records provider, for a request with resolvable credentials
whose `resolvedFQDN` is `p + "." + resolvedZone` for a label prefix `p` (a sequence of
labels, so it does not end in a dot) and a zone that names a domain (it is not empty
once its trailing dots are stripped), if `Present` succeeds then a second `Present`
succeeds too, leaves the record list as the first call left it, and issues the search
only: no create, update or delete. -/
theorem Present_idempotent (m : ProviderModel) (recs : List porkbunRecord)
    (ch : ChallengeRequest) (cfg : porkbunDNSProviderConfig) (p : String)
    (hcred : credentials m.env ch = Except.ok cfg)
    (hfqdn : ch.ResolvedFQDN = p ++ "." ++ ch.ResolvedZone)
    (hp : HasSuffix p "." = false)
    (hzone : TrimRight ch.ResolvedZone "." ≠ "")
    (h1 : (Present m.env ch recs).out = Outcome.ok ()) :
    (Present m.env ch (Present m.env ch recs).world).out = Outcome.ok () ∧
    (Present m.env ch (Present m.env ch recs).world).world = (Present m.env ch recs).world ∧
    (Present m.env ch (Present m.env ch recs).world).calls =
      [⟨Endpoint.retrieve (TrimRight ch.ResolvedZone "."),
        Body.keys cfg.APISecretKey cfg.APIkey⟩] := by
  rcases model_search_out m cfg ch with hrej | hok
  · obtain ⟨msg, hm⟩ := hrej recs
    rw [Present_of_credentials m.env ch recs cfg hcred] at h1
    unfold presentAfterSearch at h1
    simp only [hm] at h1
    exact Outcome.noConfusion h1
  · cases hfind : recs.find? (fun r => decide (r.Name = TrimRight ch.ResolvedFQDN "." ∧
        r.Content = ch.Key)) with
    | some r =>
      have hs := hok recs
      rw [hfind] at hs
      have hP := model_Present_found m cfg ch recs _ hcred hs
      rw [hP]
      simp only
      rw [hP]
      exact ⟨rfl, rfl, rfl⟩
    | none =>
      have hs := hok recs
      rw [hfind] at hs
      by_cases hr : m.rejects (Endpoint.create (TrimRight ch.ResolvedZone "."))
          (Body.record (createUpdateBody cfg ch)) = true
      · obtain ⟨msg, hm⟩ := model_add_rejected m cfg ch recs hr
        rw [Present_of_credentials m.env ch recs cfg hcred] at h1
        unfold presentAfterSearch at h1
        simp only [hs, Option.map_none', model_search_world, hm] at h1
        exact Outcome.noConfusion h1
      · have ha := model_add_accepted m cfg ch recs hr
        have hname := shortName_of_zone p ch.ResolvedZone (HasSuffix_dot_false p hp) hzone
        rw [← hfqdn] at hname
        have hW : (Present m.env ch recs).world =
            recs ++ [⟨m.newID recs,
              shortName ch.ResolvedFQDN ch.ResolvedZone ++ "." ++ TrimRight ch.ResolvedZone ".",
              "TXT", ch.Key, "600", "", ""⟩] := by
          rw [Present_of_credentials m.env ch recs cfg hcred]
          unfold presentAfterSearch
          simp only [hs, Option.map_none', model_search_world, ha]
        rw [hname.2] at hW
        rw [hW]
        have hs2 := hok (recs ++ [⟨m.newID recs, p ++ "." ++ TrimRight ch.ResolvedZone ".",
              "TXT", ch.Key, "600", "", ""⟩])
        rw [List.find?_append, hfind] at hs2
        simp only [List.find?_cons, hname.1, and_self, decide_True, Option.none_or,
          Option.map_some'] at hs2
        rw [model_Present_found m cfg ch _ _ hcred hs2]
        exact ⟨rfl, rfl, rfl⟩

/-- Two calls of `Present` for `exampleRequest` against a provider without records. -/
theorem Present_idempotent_witness :
    (Present plainProvider.env exampleRequest
      (Present plainProvider.env exampleRequest []).world).world =
    [⟨"0", "_acme-challenge.example.com", "TXT", "abc123", "600", "", ""⟩] :=
  (Present_idempotent plainProvider [] exampleRequest inlineConfig "_acme-challenge"
    (by decide) (by decide) (by decide) (by decide) (by decide)).2.1.trans (by decide)

end Porkbun
